import Mathlib

/-!
# Verification of the SQL table-synchronization engine

Shallow embedding of the schema-reconciling, mode-aware table synchronization
engine of `SQL_python_integration/sql_RW.py`, `SQL_python_integration/sql_utils.py`
and the overflow-column splitting loop of `CDP_climate_data/load_data_to_sql.py`.

Python strings are modelled as `List Char` (Python indexing and slicing are
character-based).  Nullable cells are `Option`.  Machine integers stay `Nat`
because every quantity involved (string lengths, batch sizes) is non-negative
and no overflow is reachable.
-/

namespace SqlPort

/-- A Python string: character-based, as Python's `len` and slicing are. -/
abbrev PyStr := List Char

/-- `str(v)` applied to a nullable cell of an object column: pandas'
`astype(str)` renders a missing value (`NaN`) as the 3-character string
`"nan"`.  Mirrors `df[col].astype(str)` in `sql_RW.create_table` (line 312)
and `sql_RW.__check_sql_table` (line 576). -/
def pyStrOf (v : Option PyStr) : PyStr :=
  v.getD "nan".data

/-- `np.nanmax(df[col].astype(str).apply(len).values)`: the maximum rendered
string length over all cells of the column (after `astype(str)` the array has
no NaNs left, so `nanmax` is a plain maximum; on an empty column `nanmax`
raises, so callers only use this on non-empty data). -/
def maxStrLen (col : List (Option PyStr)) : Nat :=
  (col.map fun v => (pyStrOf v).length).foldr max 0

/-- `int(max_len * 1.2)` from `sql_RW.create_table` line 313 and
`sql_RW.__check_sql_table` line 577.  Python evaluates this in IEEE double
arithmetic and truncates.  For every length in the reachable range the result
agrees with exact `⌊6·n/5⌋`: when `5 ∣ n` the exact product `6n/5` is an
integer `N` and the two roundings (of the constant `1.2` and of the product)
perturb it by less than half an ulp, so the float is exactly `N`; when
`5 ∤ n` the exact product sits at least `0.2` away from both neighbouring
integers while the float error is below `10^-10`, so the floor is unchanged.
Hence the faithful integer model is floor division. -/
def intTimes1p2 (n : Nat) : Nat :=
  6 * n / 5

/-- The declared `nvarchar` length token synthesized for a text column:
`'MAX'` when `int(max_len*1.2) > 4000`, else the decimal literal.  This exact
computation appears twice, in `sql_RW.create_table` (lines 311-317, feeding
`nvarchar(<len>)` of the CREATE statement) and in `sql_RW.__check_sql_table`
(lines 576-583, feeding `nvarchar (<len>)` of the ALTER TABLE ADD). -/
def nvarcharLenToken (col : List (Option PyStr)) : PyStr :=
  let colLen := intTimes1p2 (maxStrLen col)
  if colLen > 4000 then "MAX".data else (Nat.repr colLen).data

/-- The declared length the specification's text policy predicts:
`ceil(L × 1.2)` (`= (6L+4)/5` over the integers) when that target is ≤ 4000,
else the unbounded marker, with `L` the length of the longest value. -/
def specCeilLenToken (maxLen : Nat) : PyStr :=
  let target := (6 * maxLen + 4) / 5
  if target > 4000 then "MAX".data else (Nat.repr target).data

theorem foldr_max_le {l : List Nat} {L : Nat} (h : ∀ x ∈ l, x ≤ L) :
    l.foldr max 0 ≤ L := by
  induction l with
  | nil => exact Nat.zero_le L
  | cons a t ih =>
    simp only [List.foldr_cons]
    exact max_le (h a (List.mem_cons_self a t))
      (ih fun x hx => h x (List.mem_cons_of_mem a hx))

theorem foldr_max_eq {l : List Nat} {L : Nat} (hub : ∀ x ∈ l, x ≤ L)
    (hwit : ∃ x ∈ l, x = L) : l.foldr max 0 = L := by
  induction l with
  | nil => simp at hwit
  | cons a t ih =>
    simp only [List.foldr_cons]
    rcases hwit with ⟨x, hx, rfl⟩
    rcases List.mem_cons.mp hx with rfl | hxt
    · exact max_eq_left (foldr_max_le fun y hy => hub y (List.mem_cons_of_mem x hy))
    · have ht := ih (fun y hy => hub y (List.mem_cons_of_mem a hy)) ⟨x, hxt, rfl⟩
      rw [ht]
      exact max_eq_right (hub a (List.mem_cons_self a t))

/-- On a null-free column the rendered maximum length is the maximum value
length. -/
theorem maxStrLen_of_no_null (col : List PyStr) (L : Nat)
    (hub : ∀ x ∈ col, x.length ≤ L) (hwit : ∃ x ∈ col, x.length = L) :
    maxStrLen (col.map some) = L := by
  unfold maxStrLen
  rw [List.map_map]
  refine foldr_max_eq ?_ ?_
  · intro n hn
    rcases List.mem_map.mp hn with ⟨x, hx, rfl⟩
    exact hub x hx
  · rcases hwit with ⟨x, hx, hxL⟩
    exact ⟨x.length, List.mem_map.mpr ⟨x, hx, rfl⟩, hxL⟩

/-- C1, counterexample.  A text column whose single (non-null) value has
length `L = 3`: the program declares `nvarchar(3)` (it truncates
`int(3 * 1.2) = 3`), while the claim's `ceil(3 × 1.2) = 4` predicts
`nvarchar(4)`. -/
theorem nvarchar_len_ceil_counterexample :
    maxStrLen [some "abc".data] = 3 ∧
    nvarcharLenToken [some "abc".data] ≠ specCeilLenToken 3 := by
  decide

/-- C1, amended.  For every non-empty text column without nulls whose longest
value has length `L`, the declared length token synthesized for CREATE TABLE
and for ALTER TABLE ADD is `⌊L × 1.2⌋` (truncation, not rounding up) when that
value is ≤ 4000, and the unbounded `MAX` marker when it exceeds 4000. -/
theorem nvarchar_len_floor (col : List PyStr) (L : Nat)
    (hub : ∀ x ∈ col, x.length ≤ L) (hwit : ∃ x ∈ col, x.length = L) :
    nvarcharLenToken (col.map some) =
      if 6 * L / 5 > 4000 then "MAX".data else (Nat.repr (6 * L / 5)).data := by
  unfold nvarcharLenToken intTimes1p2
  rw [maxStrLen_of_no_null col L hub hwit]

/-- C1 amended claim evaluated at a concrete column: a single value of length
three is declared as `nvarchar(3)`, and a single value of length 5000 is
declared unbounded (`6·5000/5 = 6000 > 4000`). -/
theorem nvarchar_len_floor_witness :
    nvarcharLenToken (["abc".data].map some) =
      (if 6 * 3 / 5 > 4000 then "MAX".data else (Nat.repr (6 * 3 / 5)).data) ∧
    nvarcharLenToken ([List.replicate 5000 'a'].map some) =
      (if 6 * 5000 / 5 > 4000 then "MAX".data else (Nat.repr (6 * 5000 / 5)).data) := by
  constructor
  · exact nvarchar_len_floor ["abc".data] 3
      (by intro x hx; rw [List.mem_singleton] at hx; subst hx; exact Nat.le_refl 3)
      ⟨"abc".data, List.mem_singleton.mpr rfl, rfl⟩
  · exact nvarchar_len_floor [List.replicate 5000 'a'] 5000
      (by intro x hx; rw [List.mem_singleton] at hx; subst hx;
          exact Nat.le_of_eq (List.length_replicate 5000 'a'))
      ⟨List.replicate 5000 'a', List.mem_singleton.mpr rfl, List.length_replicate 5000 'a'⟩

/-! ## Overflow-column splitting (`CDP_climate_data/load_data_to_sql.py`, lines 42-55) -/

/-- The fixed chunk size `nvarmax = 1600` of `load_data_to_sql.py` line 20. -/
def nvarmax : Nat := 1600

/-- One overflow piece: `lambda x: np.nan if len(str(x)) <= i*nvarmax else
x[i*nvarmax:endpt]` with `endpt = min((i+1)*nvarmax, maxlen)`
(`load_data_to_sql.py` lines 47-50).  A missing value renders as `"nan"`
(length 3 ≤ `i*nvarmax` for every `i ≥ 1`), hence maps to null.  Only invoked
with `i ≥ 1` by the loop below. -/
def overflowPiece (maxlen i : Nat) (x : Option PyStr) : Option PyStr :=
  if (pyStrOf x).length ≤ i * nvarmax then none
  else some (((pyStrOf x).drop (i * nvarmax)).take (min ((i + 1) * nvarmax) maxlen - i * nvarmax))

/-- The `while i*nvarmax <= maxlen` loop of lines 44-51, which generates one
overflow column per iteration; `fuel` bounds the iteration count (the loop
advances `i` by one each pass, so `maxlen + 1` passes always suffice). -/
def overflowLoop (maxlen : Nat) : Nat → Nat → List Nat
  | 0, _ => []
  | fuel + 1, i =>
    if i * nvarmax ≤ maxlen then i :: overflowLoop maxlen fuel (i + 1) else []

/-- The indices `N` of the generated `<col>_overflow<N>` columns for a column
whose maximum rendered length is `maxlen`: the loop starts at `i = 1`. -/
def overflowIndices (maxlen : Nat) : List Nat :=
  overflowLoop maxlen (maxlen + 1) 1

/-- The full set of overflow columns generated for a text column:
`(index, piece column)` pairs in loop order. -/
def overflowColumns (col : List (Option PyStr)) : List (Nat × List (Option PyStr)) :=
  (overflowIndices (maxStrLen col)).map
    fun i => (i, col.map (overflowPiece (maxStrLen col) i))

theorem overflowLoop_eq_range' (maxlen : Nat) :
    ∀ fuel i, 1 ≤ i → maxlen / nvarmax + 1 - i ≤ fuel →
      overflowLoop maxlen fuel i = List.range' i (maxlen / nvarmax + 1 - i) := by
  intro fuel
  induction fuel with
  | zero =>
    intro i _ hf
    rw [Nat.le_zero.mp hf]
    rfl
  | succ fuel ih =>
    intro i hi hf
    unfold overflowLoop
    have hdiv : i * nvarmax ≤ maxlen ↔ i ≤ maxlen / nvarmax :=
      (Nat.le_div_iff_mul_le (by norm_num [nvarmax])).symm
    by_cases hcase : i * nvarmax ≤ maxlen
    · rw [if_pos hcase]
      have hle : i ≤ maxlen / nvarmax := hdiv.mp hcase
      have hcount : maxlen / nvarmax + 1 - i = (maxlen / nvarmax + 1 - (i + 1)) + 1 := by
        omega
      rw [hcount, List.range'_succ, ih (i + 1) (by omega) (by omega)]
    · rw [if_neg hcase]
      have hgt : maxlen / nvarmax < i := by
        by_contra hle
        exact hcase (hdiv.mpr (by omega))
      have : maxlen / nvarmax + 1 - i = 0 := by omega
      rw [this]
      rfl

/-- The loop produces indices `1, 2, ..., ⌊maxlen/1600⌋`. -/
theorem overflowIndices_eq (maxlen : Nat) :
    overflowIndices maxlen = List.range' 1 (maxlen / nvarmax) := by
  unfold overflowIndices
  rw [overflowLoop_eq_range' maxlen (maxlen + 1) 1 (Nat.le_refl 1)
    (by have := Nat.div_le_self maxlen nvarmax; omega)]
  norm_num

theorem pyStrOf_some (x : PyStr) : pyStrOf (some x) = x := rfl

theorem maxStrLen_singleton (v : Option PyStr) :
    maxStrLen [v] = (pyStrOf v).length := by
  unfold maxStrLen
  simp only [List.map_cons, List.map_nil, List.foldr_cons, List.foldr_nil, Nat.max_zero]

/-- C4, counterexample.  A column whose longest value has exactly 1600
characters: the program generates one overflow column (the loop condition
`1*1600 <= 1600` holds), and that column is entirely null; the claim's
`ceil(1600/1600) - 1 = 0` predicts no overflow column at all. -/
theorem overflow_count_counterexample :
    maxStrLen [some (List.replicate 1600 'a')] = 1600 ∧
    (overflowIndices (maxStrLen [some (List.replicate 1600 'a')])).length ≠
      (1600 + 1600 - 1) / 1600 - 1 ∧
    overflowColumns [some (List.replicate 1600 'a')] =
      [(1, [none])] := by
  have hm : maxStrLen [some (List.replicate 1600 'a')] = 1600 := by
    rw [maxStrLen_singleton, pyStrOf_some, List.length_replicate]
  have hpiece : overflowPiece 1600 1 (some (List.replicate 1600 'a')) = none := by
    rw [overflowPiece, if_pos]
    rw [pyStrOf_some, List.length_replicate]
    norm_num [nvarmax]
  refine ⟨hm, ?_, ?_⟩
  · rw [hm, overflowIndices_eq, List.length_range']
    norm_num [nvarmax]
  · rw [overflowColumns, hm, overflowIndices_eq]
    have hr : List.range' 1 (1600 / nvarmax) = [1] := by norm_num [nvarmax]
    rw [hr, List.map_cons, List.map_nil, List.map_cons, List.map_nil, hpiece]

/-- C4, amended.  The splitting policy deterministically produces exactly
`⌊max_len/1600⌋` overflow columns — which equals `ceil(max_len/1600) - 1`
except when 1600 divides `max_len`, where one extra, entirely null, overflow
column is produced.  The `N`-th column holds the slice
`[N·1600, min((N+1)·1600, max_len))` of each value, null when the value's
length is at most `N·1600`; `max_len = 5000` yields 3 overflow columns
covering characters 1600-3199, 3200-4799 and 4800-4999. -/
theorem overflow_policy (m : Nat) :
    (overflowIndices m).length = m / 1600 ∧
    (¬ (1600 ∣ m) → (overflowIndices m).length = (m + 1600 - 1) / 1600 - 1) ∧
    overflowIndices 5000 = [1, 2, 3] ∧
    (∀ (x : PyStr) (i : Nat), x.length ≤ i * 1600 →
      overflowPiece m i (some x) = none) ∧
    (∀ x : PyStr, x.length = 5000 →
      overflowPiece 5000 1 (some x) = some ((x.drop 1600).take 1600) ∧
      overflowPiece 5000 2 (some x) = some ((x.drop 3200).take 1600) ∧
      overflowPiece 5000 3 (some x) = some ((x.drop 4800).take 200)) := by
  have hlen : ∀ k, (overflowIndices k).length = k / 1600 := by
    intro k
    rw [overflowIndices_eq, List.length_range']
    rfl
  refine ⟨hlen m, ?_, ?_, ?_, ?_⟩
  · intro hndvd
    rw [hlen m]
    rw [Nat.dvd_iff_mod_eq_zero] at hndvd
    omega
  · rw [overflowIndices_eq]
    rfl
  · intro x i hx
    rw [overflowPiece, if_pos]
    rw [pyStrOf_some]
    simpa [nvarmax] using hx
  · intro x hx
    refine ⟨?_, ?_, ?_⟩ <;>
      · rw [overflowPiece, if_neg (by rw [pyStrOf_some, hx]; norm_num [nvarmax])]
        rw [pyStrOf_some]
        norm_num [nvarmax]

/-- C4 amended claim evaluated concretely: `max_len = 1700` (not a multiple of
1600) produces `ceil(1700/1600) - 1 = 1` overflow column, a 100-character
value maps to null in it, and a concrete 5000-character value is sliced at
1600, 3200 and 4800. -/
theorem overflow_policy_witness :
    (overflowIndices 1700).length = (1700 + 1600 - 1) / 1600 - 1 ∧
    overflowPiece 1700 1 (some (List.replicate 100 'b')) = none ∧
    overflowPiece 5000 3 (some (List.replicate 5000 'c')) =
      some (((List.replicate 5000 'c').drop 4800).take 200) := by
  refine ⟨(overflow_policy 1700).2.1 (by decide), ?_, ?_⟩
  · exact (overflow_policy 1700).2.2.2.1 (List.replicate 100 'b') 1
      (by rw [List.length_replicate]; norm_num)
  · exact ((overflow_policy 0).2.2.2.2 (List.replicate 5000 'c')
      (List.length_replicate 5000 'c')).2.2

/-! ## Row classification
(`sql_RW.write_to_sql` lines 220-245, `sql_utils.write_to_sql` lines 503-525)

A row is a primary-key tuple paired with the remaining (non-key) payload.
`destKeys` is the list returned by the key-projection query
`SELECT [k1], ... FROM table` — one entry per destination row, duplicates
possible. -/

/-- The `write_mode` / `if_duplicated` options. -/
inductive WriteMode
  | append
  | overwrite
  | update
  | skip
deriving DecidableEq

/-- `pd.merge(new_df, ids_from_sql, how='inner', on=ID_cols)`
(`sql_RW.py` line 234): left rows in order, each repeated once per matching
occurrence of its key tuple in the right frame. -/
def dataUpdate {κ α : Type} [DecidableEq κ] (D : List (κ × α)) (ids : List κ) :
    List (κ × α) :=
  D.flatMap fun r => List.replicate (ids.count r.1) r

/-- `pd.merge(new_df, ids_from_sql, how='outer', on=ID_cols, indicator=True)
.query('_merge == "left_only"')` (`sql_RW.py` lines 242-245): the left rows
whose key tuple never occurs in the right frame, in left order. -/
def dataInsert {κ α : Type} [DecidableEq κ] (D : List (κ × α)) (ids : List κ) :
    List (κ × α) :=
  D.filter fun r => ids.count r.1 = 0

/-- The two partitions produced by `write_to_sql` step 2, together with
whether the key-projection query against the destination was issued. -/
structure ClassifyResult (κ α : Type) where
  toInsert : List (κ × α)
  toUpdate : List (κ × α)
  queriedKeys : Bool

/-- `write_to_sql` step 2 (`sql_RW.py` lines 221-245): `append`/`overwrite`
or an empty `ID_cols` short-circuit to "insert everything" without touching
the destination; otherwise the key projection is read from the destination
and the dataset is partitioned. -/
def classify {κ α : Type} [DecidableEq κ] (mode : WriteMode) (hasIDCols : Bool)
    (D : List (κ × α)) (destKeys : List κ) : ClassifyResult κ α :=
  if mode = .append ∨ mode = .overwrite ∨ hasIDCols = false then
    ⟨D, [], false⟩
  else
    ⟨dataInsert D destKeys,
     if mode = .update then dataUpdate D destKeys else [],
     true⟩

theorem dataUpdate_eq_filter {κ α : Type} [DecidableEq κ] (D : List (κ × α))
    (S : List κ) (hS : S.Nodup) :
    dataUpdate D S = D.filter fun r => r.1 ∈ S := by
  induction D with
  | nil => rfl
  | cons a t ih =>
    rw [dataUpdate, List.flatMap_cons, ← dataUpdate, ih, List.filter_cons]
    by_cases hmem : a.1 ∈ S
    · rw [List.count_eq_one_of_mem hS hmem, if_pos (by simpa using hmem)]
      rfl
    · rw [List.count_eq_zero.mpr hmem, if_neg (by simpa using hmem)]
      rfl

theorem dataInsert_eq_filter {κ α : Type} [DecidableEq κ] (D : List (κ × α))
    (S : List κ) :
    dataInsert D S = D.filter fun r => r.1 ∉ S := by
  unfold dataInsert
  refine List.filter_congr fun r _ => ?_
  simp [List.count_eq_zero]

/-- C3.  With the destination key set `S` duplicate-free: under `update` the
two partitions are exactly the rows whose key is in `S` (to update) and the
rows whose key is not (to insert), and together they are the dataset `D` as a
multiset; under `skip` the update partition is empty and the insert partition
is `D` minus the rows whose key is in `S`. -/
theorem classify_partition_complete {κ α : Type} [DecidableEq κ]
    (D : List (κ × α)) (S : List κ) (hS : S.Nodup) :
    ((classify .update true D S).toInsert : Multiset (κ × α)) +
        ((classify .update true D S).toUpdate : Multiset (κ × α)) =
      (D : Multiset (κ × α)) ∧
    (classify .update true D S).toUpdate = (D.filter fun r => r.1 ∈ S) ∧
    (classify .update true D S).toInsert = (D.filter fun r => r.1 ∉ S) ∧
    (classify .skip true D S).toUpdate = [] ∧
    (classify .skip true D S).toInsert = (D.filter fun r => r.1 ∉ S) := by
  have hcu : classify .update true D S =
      ⟨dataInsert D S, dataUpdate D S, true⟩ := by
    rw [classify, if_neg (by simp), if_pos rfl]
  have hcs : (classify .skip true D S : ClassifyResult κ α) =
      ⟨dataInsert D S, [], true⟩ := by
    rw [classify, if_neg (by simp), if_neg (by simp)]
  refine ⟨?_, ?_, ?_, ?_, ?_⟩
  · rw [hcu]
    show (↑(dataInsert D S) + ↑(dataUpdate D S) : Multiset (κ × α)) = ↑D
    rw [dataInsert_eq_filter, dataUpdate_eq_filter D S hS, Multiset.coe_add,
      Multiset.coe_eq_coe]
    have hperm := List.filter_append_perm (fun r : κ × α => decide (r.1 ∉ S)) D
    refine List.Perm.trans ?_ hperm
    apply List.Perm.append_left
    refine List.Perm.of_eq (List.filter_congr fun r _ => ?_)
    simp
  · rw [hcu, dataUpdate_eq_filter D S hS]
  · rw [hcu, dataInsert_eq_filter]
  · rw [hcs]
  · rw [hcs, dataInsert_eq_filter]

/-- C3 evaluated concretely: `D` with keys 1,2,3 against destination keys
`{2,3,9}` partitions into inserts `[(1, 10)]` and updates
`[(2, 20), (3, 30)]`. -/
theorem classify_partition_complete_witness :
    ((classify .update true [(1, 10), (2, 20), (3, 30)] [2, 3, 9]).toInsert :
        Multiset (Nat × Nat)) +
      ((classify .update true [(1, 10), (2, 20), (3, 30)] [2, 3, 9]).toUpdate :
        Multiset (Nat × Nat)) =
      ([(1, 10), (2, 20), (3, 30)] : Multiset (Nat × Nat)) ∧
    (classify .update true [(1, 10), (2, 20), (3, 30)] [2, 3, 9]).toUpdate =
      ([(1, 10), (2, 20), (3, 30)].filter fun r => r.1 ∈ [2, 3, 9]) := by
  have h := classify_partition_complete [(1, 10), (2, 20), (3, 30)] [2, 3, 9]
    (by decide)
  exact ⟨h.1, h.2.1⟩

/-- C8, counterexample.  An empty dataset classified under `update` with a
non-empty primary key: both partitions are indeed empty, but `queriedKeys` is
`true` — `write_to_sql` still issues the key-projection query against the
destination (lines 226-230 run whenever the mode is `update`/`skip` and
`ID_cols` is non-empty, with no emptiness check), contradicting the claim
that no destination query is issued. -/
theorem classify_empty_query_counterexample :
    (classify .update true ([] : List (Nat × Nat)) [5]).toInsert = [] ∧
    (classify .update true ([] : List (Nat × Nat)) [5]).toUpdate = [] ∧
    (classify .update true ([] : List (Nat × Nat)) [5]).queriedKeys = true := by
  refine ⟨?_, ?_, ?_⟩ <;> rfl

/-- C8, amended.  For every empty dataset, under every mode, row
classification yields two empty partitions; the key-projection query is
issued exactly when the mode is `update` or `skip` and the primary-key column
list is non-empty — the empty dataset does not suppress the round-trip. -/
theorem classify_empty_partitions {κ α : Type} [DecidableEq κ]
    (mode : WriteMode) (hasIDCols : Bool) (destKeys : List κ) :
    (classify mode hasIDCols ([] : List (κ × α)) destKeys).toInsert = [] ∧
    (classify mode hasIDCols ([] : List (κ × α)) destKeys).toUpdate = [] ∧
    ((classify mode hasIDCols ([] : List (κ × α)) destKeys).queriedKeys = true ↔
      (mode = .update ∨ mode = .skip) ∧ hasIDCols = true) := by
  cases mode <;> cases hasIDCols <;>
    simp [classify, dataInsert, dataUpdate]

/-! ## Update-mode write execution
(`sql_RW.write_to_sql` lines 255-269, `__update_statement` lines 763-790)

An executed `UPDATE table SET <non-key cols> WHERE <key cols>` statement sets
the payload of *every* destination row whose key tuple equals the statement's
key parameters; the inserts of `data_insert` run first, the updates of
`data_update` after, each row in partition order. -/

/-- Effect of one parameterized UPDATE execution on the destination table. -/
def applyUpdate {κ α : Type} [DecidableEq κ] (t : List (κ × α)) (u : κ × α) :
    List (κ × α) :=
  t.map fun r => if r.1 = u.1 then (r.1, u.2) else r

/-- Effect of executing the whole update partition, row by row in order. -/
def applyUpdates {κ α : Type} [DecidableEq κ] (t : List (κ × α))
    (us : List (κ × α)) : List (κ × α) :=
  us.foldl applyUpdate t

/-- One `write(D, mode=update)` call against destination `dest`: classify
against the current destination keys, append the insert partition, then
execute the update partition. -/
def writeUpdate {κ α : Type} [DecidableEq κ] (dest D : List (κ × α)) :
    List (κ × α) :=
  let ids := dest.map Prod.fst
  applyUpdates (dest ++ dataInsert D ids) (dataUpdate D ids)

theorem applyUpdates_map_fst {κ α : Type} [DecidableEq κ]
    (us : List (κ × α)) :
    ∀ t : List (κ × α), (applyUpdates t us).map Prod.fst = t.map Prod.fst := by
  induction us with
  | nil => intro t; rfl
  | cons u rest ih =>
    intro t
    show (applyUpdates (applyUpdate t u) rest).map Prod.fst = t.map Prod.fst
    rw [ih (applyUpdate t u), applyUpdate, List.map_map]
    refine List.map_congr_left fun r _ => ?_
    by_cases h : r.1 = u.1 <;> simp [h]

theorem applyUpdates_fixpoint {κ α : Type} [DecidableEq κ]
    (us : List (κ × α)) :
    ∀ t : List (κ × α), (∀ u ∈ us, ∀ r ∈ t, r.1 = u.1 → r.2 = u.2) →
      applyUpdates t us = t := by
  induction us with
  | nil => intro t _; rfl
  | cons u rest ih =>
    intro t h
    have hstep : applyUpdate t u = t := by
      conv_rhs => rw [← List.map_id t]
      refine List.map_congr_left fun r hr => ?_
      by_cases hk : r.1 = u.1
      · rw [if_pos hk]
        have := h u (List.mem_cons_self u rest) r hr hk
        cases r
        simp_all
      · rw [if_neg hk]
        rfl
    show applyUpdates (applyUpdate t u) rest = t
    rw [hstep]
    exact ih t fun v hv r hr => h v (List.mem_cons_of_mem u hv) r hr

/-- Every row of the table after a coherent batch of updates either carries
the payload dictated by the key function `f`, or is an untouched original row
whose key no update mentioned. -/
theorem applyUpdates_mem {κ α : Type} [DecidableEq κ] (f : κ → Option α)
    (us : List (κ × α)) :
    ∀ t : List (κ × α), (∀ u ∈ us, f u.1 = some u.2) →
      ∀ r ∈ applyUpdates t us,
        f r.1 = some r.2 ∨ (r ∈ t ∧ r.1 ∉ us.map Prod.fst) := by
  induction us with
  | nil =>
    intro t _ r hr
    exact Or.inr ⟨hr, by simp⟩
  | cons u rest ih =>
    intro t hcoh r hr
    have hr' : r ∈ applyUpdates (applyUpdate t u) rest := hr
    rcases ih (applyUpdate t u)
        (fun v hv => hcoh v (List.mem_cons_of_mem u hv)) r hr' with hf | ⟨hmem, hnk⟩
    · exact Or.inl hf
    · rcases List.mem_map.mp hmem with ⟨r0, hr0, hr0eq⟩
      by_cases hk : r0.1 = u.1
      · rw [if_pos hk] at hr0eq
        subst hr0eq
        refine Or.inl ?_
        rw [hk]
        exact hcoh u (List.mem_cons_self u rest)
      · rw [if_neg hk] at hr0eq
        subst hr0eq
        refine Or.inr ⟨hr0, ?_⟩
        rw [List.map_cons, List.mem_cons]
        rintro (h1 | h2)
        · exact hk h1
        · exact hnk h2

/-- In a list with duplicate-free keys, two members sharing a key are equal. -/
theorem eq_of_nodup_keys {κ α : Type} [DecidableEq κ] {D : List (κ × α)}
    (hD : (D.map Prod.fst).Nodup) {r d : κ × α} (hr : r ∈ D) (hd : d ∈ D)
    (hk : r.1 = d.1) : r = d := by
  induction D with
  | nil => cases hr
  | cons a t ih =>
    rw [List.map_cons, List.nodup_cons] at hD
    rcases List.mem_cons.mp hr with rfl | hrt
    · rcases List.mem_cons.mp hd with rfl | hdt
      · rfl
      · exact absurd (hk ▸ List.mem_map.mpr ⟨d, hdt, rfl⟩) hD.1
    · rcases List.mem_cons.mp hd with rfl | hdt
      · exact absurd (hk ▸ List.mem_map.mpr ⟨r, hrt, rfl⟩ :
          (d.1 ∈ t.map Prod.fst)) hD.1
      · exact ih hD.2 hrt hdt

/-- The key-indexed payload of a duplicate-free dataset. -/
theorem lookup_of_mem {κ α : Type} [DecidableEq κ] {D : List (κ × α)}
    (hD : (D.map Prod.fst).Nodup) {d : κ × α} (hd : d ∈ D) :
    (D.find? fun r => r.1 = d.1).map Prod.snd = some d.2 := by
  have hsome : (D.find? fun r => r.1 = d.1).isSome := by
    rw [List.find?_isSome]
    exact ⟨d, hd, by simp⟩
  rcases Option.isSome_iff_exists.mp hsome with ⟨w, hw⟩
  have hwk : w.1 = d.1 := by simpa using List.find?_some hw
  have hwD : w ∈ D := List.mem_of_find?_eq_some hw
  rw [hw]
  rw [eq_of_nodup_keys hD hwD hd hwk]
  rfl

/-- C2, counterexample.  A dataset containing two rows with the same
primary-key tuple `0` (which the classifier deliberately does not
deduplicate): the first call inserts both rows `(0,1), (0,2)`, the second
call classifies both as updates and each UPDATE statement rewrites *all*
destination rows with key `0`, so the destination ends as
`[(0,2), (0,2)]` ≠ `[(0,1), (0,2)]`.  Running `write(D, mode=update)` twice
is not the same as running it once. -/
theorem write_update_idem_counterexample :
    writeUpdate (writeUpdate ([] : List (Nat × Nat)) [(0, 1), (0, 2)])
        [(0, 1), (0, 2)] ≠
      writeUpdate ([] : List (Nat × Nat)) [(0, 1), (0, 2)] := by
  decide

/-- C2, amended.  For every dataset `D` whose primary-key tuples are pairwise
distinct and every destination state, running `write(D, mode=update)` twice
in sequence leaves the destination in the same final state as running it
once: the second call inserts nothing and its updates rewrite every affected
row with the values it already has. -/
theorem write_update_idem {κ α : Type} [DecidableEq κ] (dest D : List (κ × α))
    (hD : (D.map Prod.fst).Nodup) :
    writeUpdate (writeUpdate dest D) D = writeUpdate dest D := by
  classical
  set ids0 := dest.map Prod.fst with hids0
  set dest1 := writeUpdate dest D with hdest1
  -- the lookup function realized by the duplicate-free dataset
  set f : κ → Option α := fun k => (D.find? fun r => r.1 = k).map Prod.snd
    with hf
  have hfl : ∀ d ∈ D, f d.1 = some d.2 := fun d hd => lookup_of_mem hD hd
  -- keys of the destination after the first call
  have hkeys1 : dest1.map Prod.fst = ids0 ++ (dataInsert D ids0).map Prod.fst := by
    rw [hdest1, writeUpdate, applyUpdates_map_fst, List.map_append]
  have hDkeys : ∀ d ∈ D, d.1 ∈ dest1.map Prod.fst := by
    intro d hd
    rw [hkeys1, List.mem_append]
    by_cases hmem : d.1 ∈ ids0
    · exact Or.inl hmem
    · refine Or.inr (List.mem_map.mpr ⟨d, ?_, rfl⟩)
      rw [dataInsert, List.mem_filter]
      exact ⟨hd, by simpa [List.count_eq_zero] using hmem⟩
  -- the second call inserts nothing
  have hins2 : dataInsert D (dest1.map Prod.fst) = [] := by
    rw [dataInsert, List.filter_eq_nil_iff]
    intro d hd
    have := hDkeys d hd
    simp only [decide_eq_true_eq, List.count_eq_zero]
    intro hc
    exact hc this
  -- every row of `dest1` whose key occurs in `D` already carries `D`'s payload
  have hmain : ∀ d ∈ D, ∀ r ∈ dest1, r.1 = d.1 → r.2 = d.2 := by
    intro d hd r hr hk
    have hcoh1 : ∀ u ∈ dataUpdate D ids0, f u.1 = some u.2 := by
      intro u hu
      rcases List.mem_flatMap.mp hu with ⟨a, ha, hrep⟩
      rcases List.mem_replicate.mp hrep with ⟨-, rfl⟩
      exact hfl u ha
    rw [hdest1, writeUpdate] at hr
    rcases applyUpdates_mem f (dataUpdate D ids0) (dest ++ dataInsert D ids0)
        hcoh1 r hr with hfr | ⟨hrt, hnk⟩
    · have hfd : f d.1 = some d.2 := hfl d hd
      rw [hk, hfd] at hfr
      exact (Option.some.inj hfr).symm
    · rcases List.mem_append.mp hrt with hrdest | hrins
      · -- impossible: `r`'s key is a destination key, so `d` generated updates
        exfalso
        apply hnk
        have hcnt : 0 < ids0.count d.1 := by
          rw [List.count_pos_iff]
          rw [← hk]
          exact List.mem_map.mpr ⟨r, hrdest, rfl⟩
        have hdu : d ∈ dataUpdate D ids0 := by
          rw [dataUpdate]
          exact List.mem_flatMap.mpr
            ⟨d, hd, List.mem_replicate.mpr ⟨Nat.pos_iff_ne_zero.mp hcnt, rfl⟩⟩
        rw [hk]
        exact List.mem_map.mpr ⟨d, hdu, rfl⟩
      · -- `r` was inserted by the first call, so it is a row of `D`
        have hrD : r ∈ D := List.mem_of_mem_filter hrins
        rw [eq_of_nodup_keys hD hrD hd hk]
  -- the second call's updates rewrite rows with the values they already have
  have hfix : applyUpdates dest1 (dataUpdate D (dest1.map Prod.fst)) = dest1 := by
    refine applyUpdates_fixpoint _ dest1 ?_
    intro u hu r hr hk
    rcases List.mem_flatMap.mp hu with ⟨a, ha, hrep⟩
    rcases List.mem_replicate.mp hrep with ⟨-, rfl⟩
    exact hmain u ha r hr hk
  calc writeUpdate dest1 D
      = applyUpdates (dest1 ++ dataInsert D (dest1.map Prod.fst))
          (dataUpdate D (dest1.map Prod.fst)) := rfl
    _ = applyUpdates dest1 (dataUpdate D (dest1.map Prod.fst)) := by
          rw [hins2, List.append_nil]
    _ = dest1 := hfix

/-- C2 amended claim evaluated concretely: a duplicate-free dataset written
twice in update mode against a destination that already holds key 1. -/
theorem write_update_idem_witness :
    writeUpdate (writeUpdate [(1, 5)] [(1, 10), (2, 20)]) [(1, 10), (2, 20)] =
      writeUpdate [(1, 5)] [(1, 10), (2, 20)] :=
  write_update_idem [(1, 5)] [(1, 10), (2, 20)] (by decide)

/-! ## Batch writer
(`sql_RW.__batch_write_data` lines 690-736, `sql_utils.batch_write_data`
lines 587-611)

The loop `while batch_start < len(df): batch_end = min(batch_start +
batch_size, len(df)); df.iloc[batch_start:batch_end]; ...; batch_start +=
batch_size` slices the partition into contiguous row ranges, committing one
per iteration (autocommit in `sql_RW`, explicit `con.commit()` in
`sql_utils`).  Modelled on the suffix left to process; `fuel` bounds the
iteration count (each pass with `batch_size ≥ 1` drops at least one row, so
`df.length` passes always suffice — this is the loop's termination
argument). -/

/-- The batch loop body, one recursive call per `while` iteration. -/
def batchLoop {α : Type} (B : Nat) : Nat → List α → List (List α)
  | 0, _ => []
  | _, [] => []
  | fuel + 1, df => df.take B :: batchLoop B fuel (df.drop B)

/-- The list of row batches committed by `batch_write_data`, in commit
order. -/
def batchWrite {α : Type} (df : List α) (B : Nat) : List (List α) :=
  batchLoop B df.length df

theorem batchLoop_congr {α : Type} (B : Nat) (hB : 1 ≤ B) :
    ∀ (fuelA fuelB : Nat) (df : List α), df.length ≤ fuelA →
      df.length ≤ fuelB → batchLoop B fuelA df = batchLoop B fuelB df := by
  intro fuelA
  induction fuelA with
  | zero =>
    intro fuelB df h1 _
    rw [List.length_eq_zero.mp (Nat.le_zero.mp h1)]
    cases fuelB <;> rfl
  | succ fuel ih =>
    intro fuelB df h1 h2
    cases df with
    | nil => cases fuelB <;> rfl
    | cons a t =>
      cases fuelB with
      | zero =>
        rw [List.length_cons] at h2
        exact absurd h2 (Nat.not_succ_le_zero t.length)
      | succ g =>
        show (a :: t).take B :: batchLoop B fuel ((a :: t).drop B) =
          (a :: t).take B :: batchLoop B g ((a :: t).drop B)
        have hlen1 : ((a :: t).drop B).length ≤ fuel := by
          rw [List.length_drop]
          simp only [List.length_cons] at h1 ⊢
          omega
        have hlen2 : ((a :: t).drop B).length ≤ g := by
          rw [List.length_drop]
          simp only [List.length_cons] at h2 ⊢
          omega
        rw [ih g ((a :: t).drop B) hlen1 hlen2]

/-- The loop's characteristic equation: one batch of (at most) `B` rows is
committed, then the loop continues on the remaining suffix. -/
theorem batchWrite_cons {α : Type} (df : List α) (B : Nat) (hB : 1 ≤ B)
    (hne : df ≠ []) :
    batchWrite df B = df.take B :: batchWrite (df.drop B) B := by
  cases df with
  | nil => exact absurd rfl hne
  | cons a t =>
    have h1 : batchWrite (a :: t) B =
        (a :: t).take B :: batchLoop B t.length ((a :: t).drop B) := rfl
    rw [h1, batchWrite]
    congr 1
    refine batchLoop_congr B hB t.length ((a :: t).drop B).length _ ?_
      (Nat.le_refl _)
    rw [List.length_drop]
    simp only [List.length_cons]
    omega

theorem batch_sizes_aux {α : Type} (B : Nat) (hB : 1 ≤ B) :
    ∀ (n : Nat) (df : List α), df.length = n → df ≠ [] →
      ((batchWrite df B).map List.length =
        List.replicate ((df.length + B - 1) / B - 1) B ++
          [if df.length % B = 0 then B else df.length % B]) ∧
      (batchWrite df B).flatten = df := by
  intro n
  induction n using Nat.strong_induction_on with
  | _ n ih =>
    intro df hlen hne
    subst hlen
    have hpos : 1 ≤ df.length := by
      cases df with
      | nil => exact absurd rfl hne
      | cons a t => simp
    by_cases hsmall : df.length ≤ B
    · -- the whole partition fits in a single batch
      have hdrop : df.drop B = [] := List.drop_eq_nil_of_le hsmall
      have htake : df.take B = df := List.take_of_length_le hsmall
      rw [batchWrite_cons df B hB hne, hdrop, htake]
      have hnil : batchWrite ([] : List α) B = [] := rfl
      rw [hnil]
      constructor
      · have hcount : (df.length + B - 1) / B = 1 :=
          Nat.div_eq_of_lt_le (by omega) (by omega)
        rw [List.map_cons, List.map_nil, hcount]
        simp only [Nat.sub_self, List.replicate_zero, List.nil_append]
        congr 1
        by_cases hNB : df.length = B
        · rw [hNB, Nat.mod_self, if_pos rfl]
        · rw [Nat.mod_eq_of_lt (by omega), if_neg (by omega)]
      · rw [List.flatten_cons, List.flatten_nil, List.append_nil]
    · -- at least one full batch, then recurse on the suffix
      have hlt : B < df.length := Nat.lt_of_not_ge hsmall
      have hdlen : (df.drop B).length = df.length - B := List.length_drop B df
      have hdne : df.drop B ≠ [] := by
        intro h
        rw [h] at hdlen
        simp only [List.length_nil] at hdlen
        omega
      have ihd := ih (df.length - B) (by omega) (df.drop B) hdlen hdne
      rcases ihd with ⟨ihmap, ihjoin⟩
      rw [hdlen] at ihmap
      rw [batchWrite_cons df B hB hne]
      constructor
      · rw [List.map_cons, ihmap, List.length_take,
          Nat.min_eq_left (Nat.le_of_lt hlt)]
        have hmod : df.length % B = (df.length - B) % B :=
          Nat.mod_eq_sub_mod (Nat.le_of_lt hlt)
        have hcount : (df.length + B - 1) / B =
            ((df.length - B) + B - 1) / B + 1 := by
          have heq : df.length + B - 1 = ((df.length - B) + B - 1) + B := by
            omega
          rw [heq, Nat.add_div_right _ (by omega)]
        have hc1 : 1 ≤ ((df.length - B) + B - 1) / B := by
          calc 1 = B / B := (Nat.div_self (by omega)).symm
            _ ≤ ((df.length - B) + B - 1) / B :=
                Nat.div_le_div_right (by omega)
        rw [hcount, Nat.add_sub_cancel, hmod]
        conv_rhs => rw [show ((df.length - B) + B - 1) / B =
          (((df.length - B) + B - 1) / B - 1) + 1 by omega]
        rw [List.replicate_succ, List.cons_append]
      · rw [List.flatten_cons, ihjoin, List.take_append_drop]

/-- C9.  For every partition of size `N ≥ 1` and batch size `B ≥ 1`, the
batch writer terminates and issues exactly `⌈N/B⌉` batches of contiguous
rows in commit order (their concatenation is the partition itself), each of
size `B` except possibly the last, whose size is `N mod B` — or `B` when `B`
divides `N`. -/
theorem batch_write_boundaries {α : Type} (df : List α) (B : Nat)
    (hB : 1 ≤ B) (hne : df ≠ []) :
    (batchWrite df B).length = (df.length + B - 1) / B ∧
    (batchWrite df B).flatten = df ∧
    (batchWrite df B).map List.length =
      List.replicate ((df.length + B - 1) / B - 1) B ++
        [if df.length % B = 0 then B else df.length % B] := by
  have h := batch_sizes_aux B hB df.length df rfl hne
  have hpos : 1 ≤ df.length := by
    cases df with
    | nil => exact absurd rfl hne
    | cons a t => simp
  have hc1 : 1 ≤ (df.length + B - 1) / B := by
    calc 1 = B / B := (Nat.div_self (by omega)).symm
      _ ≤ (df.length + B - 1) / B := Nat.div_le_div_right (by omega)
  refine ⟨?_, h.2, h.1⟩
  have hlenmap : ((batchWrite df B).map List.length).length =
      (batchWrite df B).length := List.length_map _ _
  rw [← hlenmap, h.1, List.length_append, List.length_replicate]
  simp only [List.length_cons, List.length_nil]
  omega

/-- C9 evaluated concretely: seven rows with batch size three commit in
batches of sizes 3, 3, 1 whose concatenation is the original partition. -/
theorem batch_write_boundaries_witness :
    (batchWrite [10, 20, 30, 40, 50, 60, 70] 3).length = (7 + 3 - 1) / 3 ∧
    (batchWrite [10, 20, 30, 40, 50, 60, 70] 3).flatten =
      [10, 20, 30, 40, 50, 60, 70] ∧
    (batchWrite [10, 20, 30, 40, 50, 60, 70] 3).map List.length =
      List.replicate ((7 + 3 - 1) / 3 - 1) 3 ++ [if 7 % 3 = 0 then 3 else 7 % 3] :=
  batch_write_boundaries [10, 20, 30, 40, 50, 60, 70] 3 (by decide)
    (by decide)

/-! ## Write-mode validation
(`sql_RW.write_to_sql` lines 178-183, `sql_utils.write_to_sql` lines 474-479) -/

/-- The four accepted mode strings. -/
def validModeStr (m : PyStr) : Prop :=
  m = "update".data ∨ m = "append".data ∨ m = "skip".data ∨ m = "overwrite".data

instance (m : PyStr) : Decidable (validModeStr m) := by
  unfold validModeStr
  infer_instance

/-- `sql_RW.write_to_sql` lines 178-182: `write_mode =
kwargs.get('write_mode', 'append').lower()`, then an invalid value prints a
diagnostic and is replaced by `'append'`.  Returns the effective mode and
whether the diagnostic was printed. -/
def validateWriteMode (m : PyStr) : PyStr × Bool :=
  let m := m.map Char.toLower
  if validModeStr m then (m, false) else ("append".data, true)

/-- `sql_utils.write_to_sql` lines 474-478: `if_duplicated` is checked
verbatim (no lowercasing); an invalid value prints a diagnostic and is
replaced by `'skip'`. -/
def validateIfDuplicated (m : PyStr) : PyStr × Bool :=
  if validModeStr m then (m, false) else ("skip".data, true)

/-- C10, counterexample.  The argument `'UPDATE'` is not one of `'update'`,
`'append'`, `'skip'`, `'overwrite'`, yet `sql_RW` lowercases it first and
accepts it as `update` with no diagnostic — it neither emits the diagnostic
nor substitutes the `'append'` default the claim asserts. -/
theorem mode_validation_counterexample :
    ¬ validModeStr "UPDATE".data ∧
    validateWriteMode "UPDATE".data = ("update".data, false) ∧
    validateWriteMode "UPDATE".data ≠ ("append".data, true) := by
  refine ⟨by decide, by decide, by decide⟩

/-- C10, amended.  No mode value raises (validation is a total check).  In
`sql_RW` the argument is lowercased first: values whose lowercased form is
valid are accepted as that mode without diagnostic, and only values invalid
even after lowercasing trigger the console diagnostic and the `'append'`
default.  In `sql_utils` any value other than exactly the four options
triggers the diagnostic and the `'skip'` default. -/
theorem mode_validation (m : PyStr) :
    (¬ validModeStr (m.map Char.toLower) →
      validateWriteMode m = ("append".data, true)) ∧
    (validModeStr (m.map Char.toLower) →
      validateWriteMode m = (m.map Char.toLower, false)) ∧
    (¬ validModeStr m → validateIfDuplicated m = ("skip".data, true)) ∧
    (validModeStr m → validateIfDuplicated m = (m, false)) := by
  refine ⟨fun h => ?_, fun h => ?_, fun h => ?_, fun h => ?_⟩
  · rw [validateWriteMode]
    exact if_neg h
  · rw [validateWriteMode]
    exact if_pos h
  · rw [validateIfDuplicated, if_neg h]
  · rw [validateIfDuplicated, if_pos h]

/-- C10 amended claim evaluated concretely: `'upsert'` is downgraded to
`'append'` with a diagnostic in `sql_RW`, and `'UPDATE'` is downgraded to
`'skip'` with a diagnostic in `sql_utils`. -/
theorem mode_validation_witness :
    validateWriteMode "upsert".data = ("append".data, true) ∧
    validateIfDuplicated "UPDATE".data = ("skip".data, true) :=
  ⟨(mode_validation "upsert".data).1 (by decide),
   (mode_validation "UPDATE".data).2.2.1 (by decide)⟩

/-! ## Dtype coercion
(`sql_utils.correct_types` lines 378-429; `sql_RW.__correct_types`
lines 595-664 has the same `try`/`except` structure)

For each dataframe column whose pandas dtype differs from the dtype mapped
from the destination's declared SQL type, the code runs
`new_table[col].astype(target)` inside `try`; on failure, when the target
dtype contains `'int'` it runs `new_table[col].astype('float')` — *outside*
any `try` — otherwise it prints a message and `return pd.DataFrame()`.
The cast itself is the external pandas library; it is modelled here on the
value domain the engine handles (integers, floats, text, nulls): casting to
an integer dtype fails on nulls and non-numeric text, casting to float
accepts nulls (as NaN) and numeric text but fails on non-numeric text. -/

/-- A runtime cell value of a dataframe column. -/
inductive PyVal
  | int (n : Int)
  | float (q : Rat)
  | str (s : PyStr)
  | null
deriving DecidableEq

/-- Numeric-literal test for a text cell (optional sign, at least one
digit). -/
def numericStr (s : PyStr) : Bool :=
  match s with
  | '-' :: rest => rest ≠ [] && rest.all Char.isDigit
  | _ => s ≠ [] && s.all Char.isDigit

/-- The integer a numeric text cell denotes. -/
def parsedInt (s : PyStr) : Int :=
  match s with
  | '-' :: rest => -(rest.foldl (fun a c => a * 10 + (c.toNat - 48)) 0 : Nat)
  | _ => (s.foldl (fun a c => a * 10 + (c.toNat - 48)) 0 : Nat)

/-- Model of `Series.astype` to an integer dtype (`'int64'`/`'int'`):
pandas raises on missing values and on non-numeric text. -/
def castValInt : PyVal → Option PyVal
  | .int n => some (.int n)
  | .float q => some (.int ⌊q⌋)
  | .str s => if numericStr s then some (.int (parsedInt s)) else none
  | .null => none

/-- Model of `Series.astype('float')`: missing values become NaN (kept as
null), non-numeric text raises. -/
def castValFloat : PyVal → Option PyVal
  | .int n => some (.float n)
  | .float q => some (.float q)
  | .str s => if numericStr s then some (.float (parsedInt s)) else none
  | .null => some .null

/-- `Series.astype(dtype)` over the dtypes produced by `type_transform`
(lines 394-410): `object` and `datetime64[ns]` targets are pass-through
successes for this value domain, integer and float targets cast cell-wise
and fail if any cell fails. -/
def castColumn (dtype : PyStr) (vs : List PyVal) : Option (List PyVal) :=
  if dtype = "int64".data ∨ dtype = "int".data then vs.mapM castValInt
  else if dtype = "float".data then vs.mapM castValFloat
  else some vs

/-- Outcome of coercing one mismatched column, and of the whole
`correct_types` call. -/
inductive CoerceOutcome
  | converted (vs : List PyVal)
  | emptyFrame
  | raised
deriving DecidableEq

/-- The `try`/`except` block of `correct_types` lines 418-428 for one
mismatched column: try the destination dtype; on failure, if the destination
dtype contains `'int'`, run the float cast *unguarded* (a second failure
raises out of the call), else print and return the empty dataframe. -/
def coerceColumn (destDtype : PyStr) (vs : List PyVal) : CoerceOutcome :=
  match castColumn destDtype vs with
  | some vs2 => .converted vs2
  | none =>
    if List.IsInfix "int".data destDtype then
      match castColumn "float".data vs with
      | some vs2 => .converted vs2
      | none => .raised
    else .emptyFrame

/-- Outcome of the whole `correct_types` call on a table. -/
inductive TableOutcome
  | table (cols : List (PyStr × List PyVal))
  | emptyFrame
  | raised
deriving DecidableEq

/-- The column loop of `correct_types` lines 414-428: columns whose dtype
already matches are kept; the first column returning the empty frame ends
the call with an empty result, a raise propagates immediately.  Each entry
is `(source dtype, destination dtype, values)`. -/
def coerceTable : List (PyStr × PyStr × List PyVal) → TableOutcome
  | [] => .table []
  | (src, dest, vs) :: rest =>
    let one : CoerceOutcome :=
      if src = dest then .converted vs else coerceColumn dest vs
    match one with
    | .converted vs2 =>
      match coerceTable rest with
      | .table cols => .table ((dest, vs2) :: cols)
      | .emptyFrame => .emptyFrame
      | .raised => .raised
    | .emptyFrame => .emptyFrame
    | .raised => .raised

/-- C5, counterexample.  A text column holding `'abc'` destined for an
integer column (`int64`): the `astype('int64')` cast fails, the fallback
`astype('float')` also fails — and because that fallback is outside any
`try`, the whole call raises the pandas error instead of aborting with the
claimed empty result. -/
theorem coerce_int_double_failure_counterexample :
    coerceTable [("object".data, "int64".data, [PyVal.str "abc".data])] =
      .raised ∧
    TableOutcome.raised ≠ TableOutcome.emptyFrame := by
  refine ⟨by decide, by decide⟩

/-- C5, amended.  For every column whose values cannot be cast to the
destination's declared type: if the destination type is integer-family, the
coercion step falls back to a floating-point cast before giving up; if that
fallback succeeds the column is written as floats, but if it also fails the
error propagates (the write call raises) rather than returning an empty
result.  Only for non-integer destinations does a failed cast end the whole
call with an empty result and no rows written. -/
theorem coerce_int_fallback (dest : PyStr) (vs : List PyVal)
    (hfail : castColumn dest vs = none) :
    (List.IsInfix "int".data dest →
      (∀ vs2, castColumn "float".data vs = some vs2 →
        coerceColumn dest vs = .converted vs2) ∧
      (castColumn "float".data vs = none → coerceColumn dest vs = .raised)) ∧
    (¬ List.IsInfix "int".data dest → coerceColumn dest vs = .emptyFrame) ∧
    (∀ (src : PyStr) (rest : List (PyStr × PyStr × List PyVal)),
      src ≠ dest → List.IsInfix "int".data dest →
      castColumn "float".data vs = none →
      coerceTable ((src, dest, vs) :: rest) = .raised) := by
  refine ⟨fun hint => ⟨fun vs2 hok => ?_, fun hko => ?_⟩, fun hnint => ?_,
    fun src rest hsrc hint hko => ?_⟩
  · rw [coerceColumn, hfail, if_pos hint, hok]
  · rw [coerceColumn, hfail, if_pos hint, hko]
  · rw [coerceColumn, hfail, if_neg hnint]
  · have hcol : coerceColumn dest vs = .raised := by
      rw [coerceColumn, hfail, if_pos hint, hko]
    rw [coerceTable, if_neg hsrc, hcol]

/-- C5 amended claim evaluated concretely: for destination dtype `int64`,
a null-bearing integer column falls back to floats successfully, while a
non-numeric text column raises out of the call. -/
theorem coerce_int_fallback_witness :
    coerceColumn "int64".data [PyVal.int 7, PyVal.null] =
      .converted [PyVal.float 7, PyVal.null] ∧
    coerceTable [("object".data, "int64".data, [PyVal.str "abc".data])] =
      .raised := by
  constructor
  · exact ((coerce_int_fallback "int64".data [PyVal.int 7, PyVal.null]
      (by decide)).1 (by decide)).1 [PyVal.float 7, PyVal.null] (by decide)
  · exact (coerce_int_fallback "int64".data [PyVal.str "abc".data]
      (by decide)).2.2 "object".data [] (by decide) (by decide) (by decide)

/-! ## CREATE TABLE synthesis
(`sql_RW.create_table` lines 276-356 and `sql_utils.create_table`
lines 181-224)

The query string is built by appending one declaration per dataframe column;
`query[0:-2]` re-slicing turns a trailing `', '` into `' NOT NULL, '` for
primary-key columns, and the class version finishes with a composite
`PRIMARY KEY(...)` clause when `ID_cols` is non-empty.  The dtype dispatch is
Python substring containment (`'int64' in col_type`, ...). -/

/-- A dataframe column as `create_table` sees it: its name, its pandas dtype
string, and its values (consulted only for `object` columns, to size the
`nvarchar`). -/
structure PyColumn where
  name : PyStr
  dtype : PyStr
  values : List (Option PyStr)

/-- Python `s[0:-2]`. -/
def dropRight2 (l : PyStr) : PyStr :=
  l.take (l.length - 2)

/-- The dtypes handled by the `if`/`elif` dispatch of `sql_RW.create_table`
lines 325-335 (`bool` reaches a branch that raises `TypeError` — line 337
evaluates `+ c` on a string — and an unrecognized dtype appends nothing). -/
def recognizedDtype (d : PyStr) : Prop :=
  List.IsInfix "int64".data d ∨ List.IsInfix "int".data d ∨
    List.IsInfix "float".data d ∨ List.IsInfix "datetime".data d ∨
    List.IsInfix "object".data d

instance (d : PyStr) : Decidable (recognizedDtype d) := by
  unfold recognizedDtype
  infer_instance

/-- The per-column type declaration of `sql_RW.create_table` lines 324-339:
`none` models the `TypeError` raised on the `bool` branch, `some []` the
unrecognized-dtype branch that only prints a message. -/
def colTypeDecl (c : PyColumn) : Option PyStr :=
  if List.IsInfix "int64".data c.dtype then
    some ("[".data ++ c.name ++ "] bigint, ".data)
  else if List.IsInfix "int".data c.dtype then
    some ("[".data ++ c.name ++ "] int, ".data)
  else if List.IsInfix "float".data c.dtype then
    some ("[".data ++ c.name ++ "] float, ".data)
  else if List.IsInfix "datetime".data c.dtype then
    some ("[".data ++ c.name ++ "] datetime, ".data)
  else if List.IsInfix "object".data c.dtype then
    some ("[".data ++ c.name ++ "] nvarchar(".data ++
      nvarcharLenToken c.values ++ "), ".data)
  else if List.IsInfix "bool".data c.dtype then none
  else some []

/-- Lines 324-343 of `sql_RW.create_table` for one column: append the type
declaration, then for a primary-key column strip the trailing `', '` and
append `' NOT NULL, '`, then append the newline. -/
def addColumn (IDs : List PyStr) (q : Option PyStr) (c : PyColumn) :
    Option PyStr :=
  q.bind fun qs => (colTypeDecl c).map fun d =>
    (if c.name ∈ IDs then dropRight2 (qs ++ d) ++ " NOT NULL, ".data
     else qs ++ d) ++ "\n".data

/-- Lines 346-350: the body of the `PRIMARY KEY(` clause accumulates
`'[<col>], '` per primary-key column in `ID_cols` order. -/
def pkFold (IDs : List PyStr) : PyStr :=
  IDs.foldl (fun acc col => acc ++ "[".data ++ col ++ "], ".data) []

/-- Lines 320-323: the `CREATE TABLE [schema].[name](` header. -/
def createHeader (tbl sch : PyStr) : PyStr :=
  if sch = [] then "CREATE TABLE [".data ++ tbl ++ "](\n".data
  else "CREATE TABLE [".data ++ sch ++ "].[".data ++ tbl ++ "](\n".data

/-- The complete statement text built by `sql_RW.create_table`
(lines 319-352), `none` when a `bool` column made the build raise. -/
def createTableQuery (cols : List PyColumn) (tbl sch : PyStr)
    (IDs : List PyStr) : Option PyStr :=
  match cols.foldl (addColumn IDs) (some (createHeader tbl sch)) with
  | none => none
  | some body =>
    let q2 := if IDs ≠ [] then
        dropRight2 (body ++ "PRIMARY KEY(".data ++ pkFold IDs) ++ ") \n".data
      else body
    some (dropRight2 q2 ++ ")".data)

/-- The per-column declaration of `sql_utils.create_table` lines 198-218:
`real` for floats, a fixed `nvarchar(256)` for text (both branches of the
line 208 `if` are identical), names appended without brackets on the `bool`
branch, no newlines. -/
def colTypeDeclUtils (c : PyColumn) : PyStr :=
  if List.IsInfix "int64".data c.dtype then
    "[".data ++ c.name ++ "] bigint, ".data
  else if List.IsInfix "int".data c.dtype then
    "[".data ++ c.name ++ "] int, ".data
  else if List.IsInfix "float".data c.dtype then
    "[".data ++ c.name ++ "] real, ".data
  else if List.IsInfix "datetime".data c.dtype then
    "[".data ++ c.name ++ "] datetime, ".data
  else if List.IsInfix "object".data c.dtype then
    "[".data ++ c.name ++ "] nvarchar(256), ".data
  else if List.IsInfix "bool".data c.dtype then
    c.name ++ " int, ".data
  else []

/-- The complete statement text built by `sql_utils.create_table`
lines 196-220: header without brackets, `NOT NULL` for key columns, and —
unlike the class version — no `PRIMARY KEY` clause at all. -/
def createTableQueryUtils (cols : List PyColumn) (tbl : PyStr)
    (IDs : List PyStr) : PyStr :=
  let body := cols.foldl
    (fun q c =>
      let q := q ++ colTypeDeclUtils c
      if c.name ∈ IDs then dropRight2 q ++ " NOT NULL, ".data else q)
    ("CREATE TABLE ".data ++ tbl ++ "(".data)
  dropRight2 body ++ ")".data

/-- The claim's scenario dataset: `{id: int, name: text of max length 50,
created: datetime}`. -/
def scenarioCols : List PyColumn :=
  [⟨"id".data, "int64".data, []⟩,
   ⟨"name".data, "object".data, [some (List.replicate 50 'x')]⟩,
   ⟨"created".data, "datetime64[ns]".data, []⟩]

theorem dropRight2_append (a b : PyStr) (hb : 2 ≤ b.length) :
    dropRight2 (a ++ b) = a ++ dropRight2 b := by
  unfold dropRight2
  rw [List.length_append,
    show a.length + b.length - 2 = a.length + (b.length - 2) by omega,
    List.take_append]

/-- The net contribution of one recognized column to the statement text. -/
def colFragment (IDs : List PyStr) (c : PyColumn) : PyStr :=
  (if c.name ∈ IDs then
      dropRight2 ((colTypeDecl c).getD []) ++ " NOT NULL, ".data
    else (colTypeDecl c).getD []) ++ "\n".data

theorem colTypeDecl_recognized (c : PyColumn) (h : recognizedDtype c.dtype) :
    ∃ d, colTypeDecl c = some d ∧ 2 ≤ d.length := by
  unfold colTypeDecl
  by_cases h1 : List.IsInfix "int64".data c.dtype
  · rw [if_pos h1]
    refine ⟨_, rfl, ?_⟩
    have hz : ("] bigint, ".data : PyStr).length = 10 := rfl
    simp only [List.length_append, hz]
    omega
  · rw [if_neg h1]
    by_cases h2 : List.IsInfix "int".data c.dtype
    · rw [if_pos h2]
      refine ⟨_, rfl, ?_⟩
      have hz : ("] int, ".data : PyStr).length = 7 := rfl
      simp only [List.length_append, hz]
      omega
    · rw [if_neg h2]
      by_cases h3 : List.IsInfix "float".data c.dtype
      · rw [if_pos h3]
        refine ⟨_, rfl, ?_⟩
        have hz : ("] float, ".data : PyStr).length = 9 := rfl
        simp only [List.length_append, hz]
        omega
      · rw [if_neg h3]
        by_cases h4 : List.IsInfix "datetime".data c.dtype
        · rw [if_pos h4]
          refine ⟨_, rfl, ?_⟩
          have hz : ("] datetime, ".data : PyStr).length = 12 := rfl
          simp only [List.length_append, hz]
          omega
        · rw [if_neg h4]
          by_cases h5 : List.IsInfix "object".data c.dtype
          · rw [if_pos h5]
            refine ⟨_, rfl, ?_⟩
            have hz : ("), ".data : PyStr).length = 3 := rfl
            simp only [List.length_append, hz]
            omega
          · exact absurd h (by
              unfold recognizedDtype
              rintro (h | h | h | h | h) <;> first
                | exact h1 h | exact h2 h | exact h3 h | exact h4 h
                | exact h5 h)

theorem foldl_addColumn (IDs : List PyStr) (cols : List PyColumn)
    (hrec : ∀ c ∈ cols, recognizedDtype c.dtype) :
    ∀ init : PyStr, cols.foldl (addColumn IDs) (some init) =
      some (init ++ (cols.map (colFragment IDs)).flatten) := by
  induction cols with
  | nil =>
    intro init
    simp
  | cons c rest ih =>
    intro init
    rcases colTypeDecl_recognized c (hrec c (List.mem_cons_self c rest))
      with ⟨d, hd, hdlen⟩
    have hstep : addColumn IDs (some init) c =
        some (init ++ colFragment IDs c) := by
      unfold addColumn colFragment
      rw [hd]
      show some _ = some _
      congr 1
      rw [Option.getD_some]
      by_cases hmem : c.name ∈ IDs
      · simp only [if_pos hmem, dropRight2_append init d hdlen]
        simp [List.append_assoc]
      · simp only [if_neg hmem]
        simp [List.append_assoc]
    rw [List.foldl_cons, hstep,
      ih (fun x hx => hrec x (List.mem_cons_of_mem c hx))
        (init ++ colFragment IDs c),
      List.map_cons, List.flatten_cons]
    simp [List.append_assoc]

theorem pkFold_acc_le (IDs : List PyStr) :
    ∀ acc : PyStr, acc.length ≤
      (IDs.foldl (fun a col => a ++ "[".data ++ col ++ "], ".data) acc).length := by
  induction IDs with
  | nil => intro acc; exact Nat.le_refl _
  | cons x t ih =>
    intro acc
    refine Nat.le_trans ?_ (ih (acc ++ "[".data ++ x ++ "], ".data))
    simp only [List.length_append]
    omega

theorem pkFold_two_le (IDs : List PyStr) (h : IDs ≠ []) :
    2 ≤ (pkFold IDs).length := by
  cases IDs with
  | nil => exact absurd rfl h
  | cons x t =>
    unfold pkFold
    rw [List.foldl_cons]
    refine Nat.le_trans ?_ (pkFold_acc_le t _)
    have hz : ("], ".data : PyStr).length = 3 := rfl
    simp only [List.length_append, hz]
    omega

/-- The class version's statement, in closed form, when every dtype is
recognized and a primary key is given. -/
theorem createTableQuery_closed (cols : List PyColumn) (tbl sch : PyStr)
    (IDs : List PyStr) (hrec : ∀ c ∈ cols, recognizedDtype c.dtype)
    (hIDs : IDs ≠ []) :
    createTableQuery cols tbl sch IDs =
      some (createHeader tbl sch ++
        ((cols.map (colFragment IDs)).flatten ++
          ("PRIMARY KEY(".data ++ (dropRight2 (pkFold IDs) ++ "))".data)))) := by
  unfold createTableQuery
  rw [foldl_addColumn IDs cols hrec (createHeader tbl sch)]
  show some _ = some _
  rw [if_pos hIDs]
  congr 1
  rw [show createHeader tbl sch ++ (cols.map (colFragment IDs)).flatten ++
      "PRIMARY KEY(".data ++ pkFold IDs =
      (createHeader tbl sch ++ (cols.map (colFragment IDs)).flatten ++
        "PRIMARY KEY(".data) ++ pkFold IDs from by simp [List.append_assoc],
    dropRight2_append _ _ (pkFold_two_le IDs hIDs),
    dropRight2_append _ (") \n".data) (by decide)]
  have hz : dropRight2 (") \n".data) = ")".data := rfl
  rw [hz]
  simp [List.append_assoc]

theorem flatten_decomp {β : Type} (f : β → PyStr) (l : List β) (x : β)
    (hx : x ∈ l) :
    ∃ pre post, (l.map f).flatten = pre ++ f x ++ post := by
  induction l with
  | nil => cases hx
  | cons a t ih =>
    rcases List.mem_cons.mp hx with rfl | hxt
    · exact ⟨[], (t.map f).flatten, by simp⟩
    · rcases ih hxt with ⟨pre, post, hp⟩
      refine ⟨f a ++ pre, post, ?_⟩
      rw [List.map_cons, List.flatten_cons, hp]
      simp [List.append_assoc]

set_option maxRecDepth 8000 in
/-- C7, counterexample.  The claim also cites the module-level
`sql_utils.create_table` (lines 196-224): on the claim's own scenario that
builder emits `NOT NULL` for the key column but no `PRIMARY KEY` clause at
all (and a fixed `nvarchar(256)` rather than `nvarchar(60)`). -/
theorem create_table_pk_counterexample :
    createTableQueryUtils scenarioCols "T".data ["id".data] =
      ("CREATE TABLE T([id] bigint NOT NULL, [name] nvarchar(256), " ++
        "[created] datetime)").data ∧
    ¬ List.IsInfix "PRIMARY KEY".data
      (createTableQueryUtils scenarioCols "T".data ["id".data]) := by
  refine ⟨by decide, by decide⟩

set_option maxRecDepth 8000 in
/-- C7, amended.  In the `sql_RW` class (the version whose behaviour the
scenario pins down), for every dataset whose dtypes are recognized and whose
primary key is non-empty, the synthesized CREATE statement gives every
primary-key column a `NOT NULL` constraint and appends a composite
`PRIMARY KEY` clause listing the primary-key columns in `ID_cols` order; on
the scenario `{id: int64, name: text(50), created: datetime}` with
`primary_key=[id]` it produces `[id] bigint NOT NULL`, `[name] nvarchar(60)`,
`[created] datetime` and `PRIMARY KEY([id])`.  The module-level
`sql_utils.create_table` emits the `NOT NULL` constraints but no
`PRIMARY KEY` clause (and fixed `nvarchar(256)` text columns). -/
theorem create_table_scenario_and_pk :
    createTableQuery scenarioCols "T".data [] ["id".data] =
      some ("CREATE TABLE [T](\n[id] bigint NOT NULL, \n[name] nvarchar(60), " ++
        "\n[created] datetime, \nPRIMARY KEY([id]))").data ∧
    ∀ (cols : List PyColumn) (tbl sch : PyStr) (IDs : List PyStr),
      (∀ c ∈ cols, recognizedDtype c.dtype) → IDs ≠ [] →
      ∃ q, createTableQuery cols tbl sch IDs = some q ∧
        (∀ c ∈ cols, c.name ∈ IDs →
          ∃ pre post, q = pre ++
            (dropRight2 ((colTypeDecl c).getD []) ++ " NOT NULL, \n".data) ++
            post) ∧
        ∃ pre, q = pre ++
          ("PRIMARY KEY(".data ++ dropRight2 (pkFold IDs) ++ "))".data) := by
  constructor
  · decide
  · intro cols tbl sch IDs hrec hIDs
    refine ⟨_, createTableQuery_closed cols tbl sch IDs hrec hIDs, ?_, ?_⟩
    · intro c hc hcID
      rcases flatten_decomp (colFragment IDs) cols c hc with ⟨pre, post, hp⟩
      refine ⟨createHeader tbl sch ++ pre,
        post ++ ("PRIMARY KEY(".data ++ (dropRight2 (pkFold IDs) ++ "))".data)),
        ?_⟩
      rw [hp]
      have hfrag : colFragment IDs c =
          dropRight2 ((colTypeDecl c).getD []) ++ " NOT NULL, \n".data := by
        unfold colFragment
        rw [if_pos hcID]
        have hz : (" NOT NULL, ".data : PyStr) ++ "\n".data =
          " NOT NULL, \n".data := rfl
        simp [List.append_assoc, hz]
      rw [← hfrag]
      simp [List.append_assoc]
    · refine ⟨createHeader tbl sch ++ (cols.map (colFragment IDs)).flatten, ?_⟩
      simp [List.append_assoc]

/-- C7 amended claim's general clause evaluated at the scenario input. -/
theorem create_table_scenario_and_pk_witness :
    ∃ q, createTableQuery scenarioCols "T".data [] ["id".data] = some q ∧
      (∀ c ∈ scenarioCols, c.name ∈ ["id".data] →
        ∃ pre post, q = pre ++
          (dropRight2 ((colTypeDecl c).getD []) ++ " NOT NULL, \n".data) ++
          post) ∧
      ∃ pre, q = pre ++
        ("PRIMARY KEY(".data ++ dropRight2 (pkFold ["id".data]) ++ "))".data) :=
  create_table_scenario_and_pk.2 scenarioCols "T".data [] ["id".data]
    (by decide) (by decide)

/-! ## DDL execution without CREATE privilege
(`sql_RW.create_table` lines 353-355, `sql_utils.create_table`
lines 221-223)

The docstring of `sql_RW.create_table` (lines 282-286) promises that when
the account lacks CREATE TABLE privilege the method prints the script and
waits so the user can run it manually.  The method body contains no such
path: after building `query` it runs `cursor.execute(query)` with no
`try`/`except`, so a permission rejection from the driver raises out of the
call (`sql_utils.create_table` likewise executes unguarded; it prints the
query unconditionally but still propagates the error). -/

/-- How a CREATE TABLE attempt can end for the caller. -/
inductive DdlOutcome
  | executed
  | manualScript (q : PyStr)
  | error
deriving DecidableEq

/-- The execution tail of `sql_RW.create_table` (lines 353-355): the
statement is executed unconditionally; when the connection's credentials
cannot create tables the driver error propagates.  No branch produces a
manual-script outcome. -/
def create_table_run (canCreate : Bool) (q : PyStr) : DdlOutcome :=
  if canCreate then .executed else .error

/-- C6 (code bug).  Evaluating `create_table` under credentials that cannot
create tables: the claim (and the method's own docstring, lines 282-286)
says the CREATE statement is surfaced as text for manual execution and the
call completes as a valid partial-success outcome; the code instead raises
the driver error — no input at all produces the manual-script outcome. -/
theorem create_table_permission_propagates :
    create_table_run false
        ((createTableQuery scenarioCols "T".data [] ["id".data]).getD []) =
      .error ∧
    (∀ (b : Bool) (q s : PyStr), create_table_run b q ≠ .manualScript s) := by
  refine ⟨rfl, ?_⟩
  intro b q s
  cases b <;> simp [create_table_run]

end SqlPort
